import Mathlib

/-!
Verification of the client-side post synchronization and ordering engine of
the 8-bits repository (`bits.posts.Post` / `bits.posts.PostContainer` in the
JavaScript front end).

The JavaScript is shallowly embedded: the `PostContainer` object becomes an
explicit `State` record; the scrollable DOM element behind the container is
modelled by the `scrollTop`/`clientHeight` fields together with a derived
`scrollHeight` (the content extent clamped below by the viewport extent, as
in a real DOM element), and writes to `scrollTop` clamp into the valid DOM
range.  JavaScript truthiness of nullable numbers and the `x || null`
coercion used by the `Post` constructor are modelled explicitly.
-/

namespace Bits

/-- JS truthiness of a nullable number: `null` and `0` are falsy. -/
def truthyNat : Option Nat → Bool
  | none => false
  | some n => n != 0

/-- JS numeric coercion of a nullable number: `null` coerces to `0`. -/
def jsNum : Option Nat → Nat
  | none => 0
  | some n => n

/-- The `x || null` idiom on a nullable number field: `0` becomes `null`. -/
def orNullNat : Option Nat → Option Nat
  | none => none
  | some n => if n = 0 then none else some n

/-- The `x || null` idiom on a nullable string field: `""` becomes `null`. -/
def orNullStr : Option String → Option String
  | none => none
  | some s => if s = "" then none else some s

/-- A post, mirroring the fields set by the `bits.posts.Post` constructor.
`height` models the rendered height of the post's DOM element (used by the
scroll-geometry model; it is determined by rendering, not by the constructor). -/
structure Post where
  shardId : Option String := none
  archiveType : String := "unknown"
  nickname : Option String := none
  body : Option String := none
  postTimeMs : Option Nat := none
  postDateTime : Option Nat := none
  postId : Option String := none
  sequenceId : Option Nat := none
  postAttachment : Option String := none
  height : Nat := 0
deriving DecidableEq, Repr

/-- The raw attribute map handed to the `bits.posts.Post` constructor
(`postMap`); each field may be absent (`none`) or present with a possibly
falsy value. -/
structure PostMap where
  shardId : Option String := none
  archiveType : Option String := none
  nickname : Option String := none
  body : Option String := none
  postTimeMs : Option Nat := none
  postId : Option String := none
  sequenceId : Option Nat := none
  postAttachment : Option String := none
deriving DecidableEq, Repr

/-- The `bits.posts.Post` constructor: every field is read with the
`postMap.field || null` idiom (falsy values collapse to `null`), the archive
type defaults to `UNKNOWN`, and `postDateTime` is set from a truthy
`postTimeMs`. -/
def Post.ofMap (pm : PostMap) : Post :=
  let timeMs := orNullNat pm.postTimeMs
  { shardId := orNullStr pm.shardId
    archiveType :=
      match pm.archiveType with
      | none => "unknown"
      | some s => if s = "" then "unknown" else s
    nickname := orNullStr pm.nickname
    body := orNullStr pm.body
    postTimeMs := timeMs
    postDateTime := if truthyNat timeMs then timeMs else none
    postId := orNullStr pm.postId
    sequenceId := orNullNat pm.sequenceId
    postAttachment := orNullStr pm.postAttachment
    height := 0 }

/-- The identity index `postIdMap` (a `goog.structs.Map` keyed by `postId`). -/
abbrev PostIdMap := List (Option String × Post)

/-- `goog.structs.Map.get`. -/
def mapGet : PostIdMap → Option String → Option Post
  | [], _ => none
  | e :: m, k => if e.1 = k then some e.2 else mapGet m k

/-- `goog.structs.Map.set`: replace the entry of an existing key, or append
a new key. -/
def mapSet : PostIdMap → Option String → Post → PostIdMap
  | [], k, v => [(k, v)]
  | e :: m, k, v => if e.1 = k then (k, v) :: m else e :: mapSet m k v

/-- `goog.structs.Map.getCount`. -/
def mapCount (m : PostIdMap) : Nat := m.length

/-- The `PostContainer` state: the identity index, the container's ordered
children (top to bottom), the lowest-seen sequence marker, and the geometry
of the scrollable element. -/
structure State where
  postIdMap : PostIdMap
  visible : List Post
  lowestSequenceId : Option Nat
  scrollTop : Nat
  clientHeight : Nat
deriving DecidableEq, Repr

/-- Total height of the rendered children. -/
def contentHeight (st : State) : Nat := (st.visible.map Post.height).sum

/-- The element's `scrollHeight`: the content extent, never below the
viewport extent (as for a real scrollable DOM element). -/
def State.scrollHeight (st : State) : Nat :=
  max (contentHeight st) st.clientHeight

/-- Assignment to `element.scrollTop`: the browser clamps the written value
into `[0, scrollHeight - clientHeight]`. -/
def setScrollTop (st : State) (v : Int) : State :=
  { st with
    scrollTop :=
      (min (max v 0) ((st.scrollHeight : Int) - (st.clientHeight : Int))).toNat }

/-- `goog.ui.Component.addChildAt`: insert a child at the given index. -/
def insertAt : Nat → Post → List Post → List Post
  | 0, p, l => p :: l
  | _ + 1, p, [] => [p]
  | n + 1, p, q :: qs => q :: insertAt n p qs

/-- The lowest-seen-sequence update performed at the top of
`addOrUpdatePost`:
`if (post.sequenceId && this.lowestSequenceId && post.sequenceId < this.lowestSequenceId)`. -/
def markerUpd (m seq : Option Nat) : Option Nat :=
  if truthyNat seq && truthyNat m && decide (jsNum seq < jsNum m) then seq else m

/-- `bits.posts.PostContainer.prototype.addOrUpdatePost`.  The in-place
mutation `foundPost.sequenceId = post.sequenceId` of the JS (which aliases
the copy held by the container) is modelled by updating the entry both in
the index and in the visible list. -/
def addOrUpdatePost (st : State) (post : Post) : State :=
  let scrollAtBottom := st.scrollHeight == st.scrollTop + st.clientHeight
  let stm := { st with lowestSequenceId := markerUpd st.lowestSequenceId post.sequenceId }
  match mapGet stm.postIdMap post.postId with
  | some foundPost =>
    if !truthyNat foundPost.sequenceId && truthyNat post.sequenceId then
      { stm with
        postIdMap := mapSet stm.postIdMap post.postId
          { foundPost with sequenceId := post.sequenceId }
        visible := stm.visible.map fun q =>
          if q.postId = post.postId then { q with sequenceId := post.sequenceId } else q }
    else stm
  | none =>
    let sti := { stm with postIdMap := mapSet stm.postIdMap post.postId post }
    let stv := { sti with visible := insertAt (mapCount sti.postIdMap - 1) post sti.visible }
    if scrollAtBottom then
      setScrollTop stv ((stv.scrollHeight : Int) - (stv.clientHeight : Int))
    else stv

/-- Insertion step of the descending sort by `sequenceId` (the comparator
`b.sequenceId - a.sequenceId`, with `null` coercing to `0`). -/
def insertDesc (p : Post) : List Post → List Post
  | [] => [p]
  | q :: qs => if jsNum q.sequenceId < jsNum p.sequenceId then p :: q :: qs
               else q :: insertDesc p qs

/-- `goog.array.sort(postList, function(a, b) \x7b return b.sequenceId - a.sequenceId; \x7d)`:
sort in descending sequence order, newest to oldest. -/
def sortDescSeq (l : List Post) : List Post := l.foldr insertDesc []

/-- `postList[postList.length - 1].sequenceId` of a nonempty list. -/
def lastSeqId : List Post → Option Nat
  | [] => none
  | [p] => p.sequenceId
  | _ :: p :: ps => lastSeqId (p :: ps)

/-- The marker update of `prependPosts`:
`if (goog.isNull(this.lowestSequenceId) || postList[len-1].sequenceId < this.lowestSequenceId)`;
the comparison coerces a `null` sequence id to `0`, and the raw (possibly
`null`) sequence id is assigned. -/
def prependMarkerUpd (m lastSeq : Option Nat) : Option Nat :=
  match m with
  | none => lastSeq
  | some mv => if jsNum lastSeq < mv then lastSeq else some mv

/-- Body of the `goog.array.forEach` loop of `prependPosts`: skip an already
indexed `postId`, otherwise index the post, insert it at position `0`, and
advance `scrollTop` by the growth of `scrollHeight`. -/
def prependOne (st : State) (post : Post) : State :=
  if (mapGet st.postIdMap post.postId).isSome then st
  else
    let st1 := { st with postIdMap := mapSet st.postIdMap post.postId post }
    let heightBefore := st1.scrollHeight
    let st2 := { st1 with visible := post :: st1.visible }
    let heightAfter := st2.scrollHeight
    setScrollTop st2 ((st2.scrollTop : Int) + ((heightAfter : Int) - (heightBefore : Int)))

/-- `bits.posts.PostContainer.prototype.prependPosts`. -/
def prependPosts (st : State) (postList : List Post) : State :=
  match postList with
  | [] => st
  | _ :: _ =>
    let sorted := sortDescSeq postList
    let stm := { st with
      lowestSequenceId := prependMarkerUpd st.lowestSequenceId (lastSeqId sorted) }
    sorted.foldl prependOne stm

/-- `bits.posts.PostContainer.prototype.handleReestablishing_`: clear the
identity index and remove all children.  (The browser clamps `scrollTop`
when content shrinks; no claim depends on the offset here, and the handler
itself writes none of the remaining fields.) -/
def handleReestablishing (st : State) : State :=
  { st with postIdMap := [], visible := [] }

/-- `bits.posts.PostContainer.prototype.handleScroll_`: returns the
`(start, end)` payload of the published `RequestHistoricalPosts` event, or
`none` when no event is published. -/
def handleScroll (st : State) : Option (Nat × Nat) :=
  if st.scrollHeight < st.clientHeight then none
  else if st.scrollTop > 0 then none
  else some (0, jsNum st.lowestSequenceId)

/-! ### Basic lemmas about the embedding -/

lemma mapGet_mapSet_self (m : PostIdMap) (k : Option String) (v : Post) :
    mapGet (mapSet m k v) k = some v := by
  induction m with
  | nil => simp [mapGet, mapSet]
  | cons e m ih =>
    by_cases h : e.1 = k
    · simp [mapGet, mapSet, h]
    · simp [mapGet, mapSet, h, ih]

lemma mapGet_mapSet_ne (m : PostIdMap) (j k : Option String) (v : Post) (h : j ≠ k) :
    mapGet (mapSet m k v) j = mapGet m j := by
  have hkj : k ≠ j := fun hh => h hh.symm
  induction m with
  | nil => simp [mapGet, mapSet, hkj]
  | cons e m ih =>
    by_cases he : e.1 = k
    · subst he
      simp [mapGet, mapSet, hkj]
    · simp [mapGet, mapSet, he, ih]

lemma mapCount_mapSet_new (m : PostIdMap) (k : Option String) (v : Post)
    (h : mapGet m k = none) : mapCount (mapSet m k v) = mapCount m + 1 := by
  induction m with
  | nil => simp [mapCount, mapSet]
  | cons e m ih =>
    by_cases he : e.1 = k
    · simp [mapGet, he] at h
    · simp [mapGet, he] at h
      simp [mapCount, mapSet, he] at ih ⊢
      exact ih h

lemma setScrollTop_postIdMap (st : State) (v : Int) :
    (setScrollTop st v).postIdMap = st.postIdMap := rfl

lemma setScrollTop_visible (st : State) (v : Int) :
    (setScrollTop st v).visible = st.visible := rfl

lemma setScrollTop_lowest (st : State) (v : Int) :
    (setScrollTop st v).lowestSequenceId = st.lowestSequenceId := rfl

lemma setScrollTop_clientHeight (st : State) (v : Int) :
    (setScrollTop st v).clientHeight = st.clientHeight := rfl

lemma setScrollTop_scrollHeight (st : State) (v : Int) :
    (setScrollTop st v).scrollHeight = st.scrollHeight := rfl

lemma clientHeight_le_scrollHeight (st : State) : st.clientHeight ≤ st.scrollHeight :=
  le_max_right _ _

lemma markerUpd_idem (m s : Option Nat) : markerUpd (markerUpd m s) s = markerUpd m s := by
  rcases s with _ | sv
  · simp [markerUpd, truthyNat]
  rcases m with _ | mv
  · simp [markerUpd, truthyNat]
  simp only [markerUpd, truthyNat, jsNum]
  split_ifs with h1 h2 <;> simp_all

/-- On a found `postId` with the reconcile condition false, `addOrUpdatePost`
only performs the marker update. -/
lemma addOrUpdatePost_found_noassign {st : State} {p q : Post}
    (hq : mapGet st.postIdMap p.postId = some q)
    (hc : (!truthyNat q.sequenceId && truthyNat p.sequenceId) = false) :
    addOrUpdatePost st p =
      { st with lowestSequenceId := markerUpd st.lowestSequenceId p.sequenceId } := by
  unfold addOrUpdatePost
  dsimp only
  rw [hq]
  dsimp only
  rw [hc]
  simp

/-- On a found `postId` with the reconcile condition true, `addOrUpdatePost`
updates the marker and backfills the sequence id of the stored entry (and of
its alias among the container's children). -/
lemma addOrUpdatePost_found_assign {st : State} {p q : Post}
    (hq : mapGet st.postIdMap p.postId = some q)
    (hc : (!truthyNat q.sequenceId && truthyNat p.sequenceId) = true) :
    addOrUpdatePost st p =
      { st with
        lowestSequenceId := markerUpd st.lowestSequenceId p.sequenceId
        postIdMap := mapSet st.postIdMap p.postId { q with sequenceId := p.sequenceId }
        visible := st.visible.map fun r =>
          if r.postId = p.postId then { r with sequenceId := p.sequenceId } else r } := by
  unfold addOrUpdatePost
  dsimp only
  rw [hq]
  dsimp only
  rw [hc]
  simp

/-- On a fresh `postId`, `addOrUpdatePost` updates the marker, indexes the
post, inserts it at index `count - 1`, and, when the viewport was at its
bottom-most extent, rewrites `scrollTop` to the new bottom. -/
lemma addOrUpdatePost_insert {st : State} {p : Post}
    (hq : mapGet st.postIdMap p.postId = none) :
    addOrUpdatePost st p =
      (let sti := { st with
          lowestSequenceId := markerUpd st.lowestSequenceId p.sequenceId
          postIdMap := mapSet st.postIdMap p.postId p }
       let stv := { sti with
          visible := insertAt (mapCount sti.postIdMap - 1) p sti.visible }
       if st.scrollHeight == st.scrollTop + st.clientHeight then
         setScrollTop stv ((stv.scrollHeight : Int) - (stv.clientHeight : Int))
       else stv) := by
  unfold addOrUpdatePost
  dsimp only
  rw [hq]

/-- Projections of the fresh-insert case of `addOrUpdatePost`. -/
lemma addOrUpdatePost_insert_proj {st : State} {p : Post}
    (hq : mapGet st.postIdMap p.postId = none) :
    (addOrUpdatePost st p).postIdMap = mapSet st.postIdMap p.postId p ∧
    (addOrUpdatePost st p).visible =
      insertAt (mapCount (mapSet st.postIdMap p.postId p) - 1) p st.visible ∧
    (addOrUpdatePost st p).lowestSequenceId =
      markerUpd st.lowestSequenceId p.sequenceId ∧
    (addOrUpdatePost st p).clientHeight = st.clientHeight := by
  rw [addOrUpdatePost_insert hq]
  dsimp only
  split <;> exact ⟨rfl, rfl, rfl, rfl⟩

/-- The lowest-seen-sequence marker after `addOrUpdatePost`, over all
branches of the function. -/
lemma addOrUpdatePost_lowest (st : State) (p : Post) :
    (addOrUpdatePost st p).lowestSequenceId =
      markerUpd st.lowestSequenceId p.sequenceId := by
  cases hq : mapGet st.postIdMap p.postId with
  | none => exact (addOrUpdatePost_insert_proj hq).2.2.1
  | some q =>
    cases hc : (!truthyNat q.sequenceId && truthyNat p.sequenceId) with
    | false => rw [addOrUpdatePost_found_noassign hq hc]
    | true => rw [addOrUpdatePost_found_assign hq hc]

/-- Projections of the not-yet-indexed case of `prependOne`. -/
lemma prependOne_not_found {st : State} {p : Post}
    (hq : mapGet st.postIdMap p.postId = none) :
    (prependOne st p).postIdMap = mapSet st.postIdMap p.postId p ∧
    (prependOne st p).visible = p :: st.visible ∧
    (prependOne st p).lowestSequenceId = st.lowestSequenceId ∧
    (prependOne st p).clientHeight = st.clientHeight := by
  unfold prependOne
  rw [hq]
  exact ⟨rfl, rfl, rfl, rfl⟩

/-- An already indexed `postId` is skipped by `prependOne`. -/
lemma prependOne_found {st : State} {p : Post}
    (hq : (mapGet st.postIdMap p.postId).isSome = true) :
    prependOne st p = st := by
  unfold prependOne
  rw [hq]
  simp

/-- Unfolding of `prependPosts` on a nonempty batch. -/
lemma prependPosts_cons (st : State) (p : Post) (ps : List Post) :
    prependPosts st (p :: ps) =
      List.foldl prependOne
        { st with lowestSequenceId :=
            prependMarkerUpd st.lowestSequenceId (lastSeqId (sortDescSeq (p :: ps))) }
        (sortDescSeq (p :: ps)) := rfl

/-! ### Claim C1 -/

/-- A state whose lowest-seen-sequence marker is unknown. -/
def stateNoMarker : State :=
  { postIdMap := [], visible := [], lowestSequenceId := none,
    scrollTop := 0, clientHeight := 100 }

/-- A post carrying sequence number `5`. -/
def postSeqFive : Post := { postId := some "a", sequenceId := some 5, height := 10 }

/-- Claim C1 counterexample: with the Lowest-Seen-Sequence marker unknown
and a post whose `sequenceId` is set (to `5`), `addOrUpdatePost` leaves the
marker unknown instead of setting it to `5` as the claim requires. -/
theorem addOrUpdatePost_marker_unknown_not_set :
    stateNoMarker.lowestSequenceId = none ∧
    postSeqFive.sequenceId = some 5 ∧
    (addOrUpdatePost stateNoMarker postSeqFive).lowestSequenceId ≠ some 5 := by
  refine ⟨rfl, rfl, ?_⟩
  decide

/-- Claim C1 (amended): `addOrUpdatePost` sets the Lowest-Seen-Sequence
marker to `post.sequenceId` exactly when `post.sequenceId` is truthy (set
and nonzero), the marker is already truthy (known and nonzero), and
`post.sequenceId` is lower than the marker; in every other case — in
particular when the marker is unknown — the marker is unchanged. -/
theorem addOrUpdatePost_marker_update_iff_known (st : State) (p : Post) :
    (addOrUpdatePost st p).lowestSequenceId =
      if truthyNat p.sequenceId && truthyNat st.lowestSequenceId &&
          decide (jsNum p.sequenceId < jsNum st.lowestSequenceId)
      then p.sequenceId else st.lowestSequenceId :=
  addOrUpdatePost_lowest st p

/-! ### Claim C2 -/

/-- A state scrolled to the top whose content extent equals the viewport
extent (an empty container: `scrollHeight` is clamped to `clientHeight`). -/
def stateTopEqualExtent : State :=
  { postIdMap := [], visible := [], lowestSequenceId := none,
    scrollTop := 0, clientHeight := 100 }

/-- Claim C2 counterexample: with the scroll offset at its top-most extent
but the content extent merely *equal* to the viewport extent (not strictly
exceeding it), the scroll handler still emits a `RequestHistoricalPosts`
event, contrary to the claim's strict-excess condition. -/
theorem handleScroll_emits_at_equal_extent :
    stateTopEqualExtent.scrollHeight = stateTopEqualExtent.clientHeight ∧
    stateTopEqualExtent.scrollTop = 0 ∧
    handleScroll stateTopEqualExtent = some (0, 0) := by
  refine ⟨?_, rfl, ?_⟩ <;> decide

/-- The observable behaviour of the scroll handler over all states. -/
lemma handleScroll_eq (st : State) :
    handleScroll st =
      if st.clientHeight ≤ st.scrollHeight ∧ st.scrollTop = 0
      then some (0, jsNum st.lowestSequenceId) else none := by
  unfold handleScroll
  have hle : st.clientHeight ≤ st.scrollHeight := clientHeight_le_scrollHeight st
  rw [if_neg (not_lt.mpr hle)]
  by_cases ht : st.scrollTop = 0
  · simp [ht, hle]
  · simp [ht, Nat.pos_of_ne_zero ht]

/-- Claim C2 (amended): the scroll handler emits a `RequestHistoricalPosts`
event if and only if the scroll offset is at its top-most extent and the
content extent is at least (not necessarily strictly greater than) the
viewport extent — a condition that always holds for a scrollable element,
whose content extent is clamped below by its viewport extent; the emitted
request carries `start = 0` and `end` = the Lowest-Seen-Sequence marker, or
`0` if the marker is unknown. -/
theorem handleScroll_emission_condition (st : State) :
    handleScroll st =
      if st.clientHeight ≤ st.scrollHeight ∧ st.scrollTop = 0
      then some (0, jsNum st.lowestSequenceId) else none :=
  handleScroll_eq st

/-! ### Claim C4 -/

/-- `addOrUpdatePost` never changes an indexed entry that already carries a
truthy `sequenceId`. -/
lemma mapGet_addOrUpdatePost_other {st : State} {p : Post} {k : Option String} {q : Post}
    (hq : mapGet st.postIdMap k = some q) (htr : truthyNat q.sequenceId = true) :
    mapGet (addOrUpdatePost st p).postIdMap k = some q := by
  by_cases hpk : p.postId = k
  · subst hpk
    have hc : (!truthyNat q.sequenceId && truthyNat p.sequenceId) = false := by
      rw [htr]; simp
    rw [addOrUpdatePost_found_noassign hq hc]
    exact hq
  · cases hfound : mapGet st.postIdMap p.postId with
    | none =>
      rw [(addOrUpdatePost_insert_proj hfound).1,
        mapGet_mapSet_ne _ _ _ _ (fun hh => hpk hh.symm)]
      exact hq
    | some q0 =>
      cases hc : (!truthyNat q0.sequenceId && truthyNat p.sequenceId) with
      | false =>
        rw [addOrUpdatePost_found_noassign hfound hc]
        exact hq
      | true =>
        rw [addOrUpdatePost_found_assign hfound hc]
        dsimp only
        rw [mapGet_mapSet_ne _ _ _ _ (fun hh => hpk hh.symm)]
        exact hq

/-- The prepend loop never changes an entry that is already indexed. -/
lemma mapGet_foldl_prependOne {l : List Post} {st : State} {k : Option String} {q : Post}
    (hq : mapGet st.postIdMap k = some q) :
    mapGet (List.foldl prependOne st l).postIdMap k = some q := by
  induction l generalizing st with
  | nil => exact hq
  | cons p ps ih =>
    rw [List.foldl_cons]
    apply ih
    by_cases hpk : p.postId = k
    · have hf : (mapGet st.postIdMap p.postId).isSome = true := by
        rw [hpk, hq]; rfl
      rw [prependOne_found hf]
      exact hq
    · cases hfound : mapGet st.postIdMap p.postId with
      | some q0 =>
        have hf : (mapGet st.postIdMap p.postId).isSome = true := by
          rw [hfound]; rfl
        rw [prependOne_found hf]
        exact hq
      | none =>
        rw [(prependOne_not_found hfound).1,
          mapGet_mapSet_ne _ _ _ _ (fun hh => hpk hh.symm)]
        exact hq

/-- `prependPosts` never changes an entry that is already indexed. -/
lemma mapGet_prependPosts {st : State} {l : List Post} {k : Option String} {q : Post}
    (hq : mapGet st.postIdMap k = some q) :
    mapGet (prependPosts st l).postIdMap k = some q := by
  cases l with
  | nil => exact hq
  | cons p ps =>
    unfold prependPosts
    exact mapGet_foldl_prependOne hq

/-- Claim C4: an indexed post with absent `sequenceId` has it backfilled by
a later `addOrUpdatePost` sharing its `postId` and carrying a concrete
(nonzero) `sequenceId`; and once an indexed post has a truthy `sequenceId`,
no later `addOrUpdatePost` or `prependPosts` call changes its entry. -/
theorem sequenceId_backfill_once :
    (∀ (st : State) (p q : Post) (s : Nat),
      mapGet st.postIdMap p.postId = some q → q.sequenceId = none →
      p.sequenceId = some s → s ≠ 0 →
      mapGet (addOrUpdatePost st p).postIdMap p.postId =
        some { q with sequenceId := some s }) ∧
    (∀ (st : State) (k : Option String) (q : Post),
      mapGet st.postIdMap k = some q → truthyNat q.sequenceId = true →
      (∀ p : Post, mapGet (addOrUpdatePost st p).postIdMap k = some q) ∧
      (∀ l : List Post, mapGet (prependPosts st l).postIdMap k = some q)) := by
  constructor
  · intro st p q s hq hqs hps hs
    have hc : (!truthyNat q.sequenceId && truthyNat p.sequenceId) = true := by
      rw [hqs, hps]
      simp [truthyNat, hs]
    rw [addOrUpdatePost_found_assign hq hc]
    dsimp only
    rw [mapGet_mapSet_self, hps]
  · intro st k q hq htr
    exact ⟨fun p => mapGet_addOrUpdatePost_other hq htr,
           fun l => mapGet_prependPosts hq⟩

/-- Sample un-sequenced indexed post for the C4 witness. -/
def postW4 : Post := { postId := some "w4", sequenceId := none, height := 5 }

/-- Sample server re-delivery for the C4 witness, carrying sequence `7`. -/
def postW4ack : Post := { postId := some "w4", sequenceId := some 7, height := 5 }

/-- State indexing the un-sequenced post, for the C4 witness. -/
def stateW4 : State :=
  { postIdMap := [(some "w4", postW4)], visible := [postW4],
    lowestSequenceId := none, scrollTop := 0, clientHeight := 100 }

/-- State indexing the already sequenced post, for the C4 witness. -/
def stateW4b : State :=
  { postIdMap := [(some "w4", { postW4 with sequenceId := some 7 })],
    visible := [{ postW4 with sequenceId := some 7 }],
    lowestSequenceId := some 7, scrollTop := 0, clientHeight := 100 }

/-- Claim C4 witness at concrete posts. -/
theorem sequenceId_backfill_once_witness :
    mapGet (addOrUpdatePost stateW4 postW4ack).postIdMap postW4ack.postId =
      some { postW4 with sequenceId := some 7 } ∧
    mapGet (addOrUpdatePost stateW4b postW4ack).postIdMap (some "w4") =
      some { postW4 with sequenceId := some 7 } ∧
    mapGet (prependPosts stateW4b [postW4ack]).postIdMap (some "w4") =
      some { postW4 with sequenceId := some 7 } :=
  ⟨sequenceId_backfill_once.1 stateW4 postW4ack postW4 7 (by decide) rfl rfl
      (by decide),
   (sequenceId_backfill_once.2 stateW4b (some "w4") { postW4 with sequenceId := some 7 }
      (by decide) (by decide)).1 postW4ack,
   (sequenceId_backfill_once.2 stateW4b (some "w4") { postW4 with sequenceId := some 7 }
      (by decide) (by decide)).2 [postW4ack]⟩

/-! ### Claim C8 -/

/-- Claim C8: starting from an empty engine, merging post `A` then post `B`
(distinct `postId`s) yields visible order `[A, B]` — each newly arriving
non-historical post is appended to the end of the visible sequence. -/
theorem addOrUpdatePost_append_ordering (A B : Post) (t c : Nat)
    (hne : A.postId ≠ B.postId) :
    (addOrUpdatePost (addOrUpdatePost
      { postIdMap := [], visible := [], lowestSequenceId := none,
        scrollTop := t, clientHeight := c } A) B).visible = [A, B] := by
  set st0 : State :=
    { postIdMap := [], visible := [], lowestSequenceId := none,
      scrollTop := t, clientHeight := c } with hst0
  have h0 : mapGet st0.postIdMap A.postId = none := rfl
  obtain ⟨hm1, hv1, _, _⟩ := addOrUpdatePost_insert_proj h0
  have hm1b : (addOrUpdatePost st0 A).postIdMap = [(A.postId, A)] := by
    rw [hm1]; rfl
  have hv1b : (addOrUpdatePost st0 A).visible = [A] := by
    rw [hv1]; rfl
  have h1 : mapGet (addOrUpdatePost st0 A).postIdMap B.postId = none := by
    rw [hm1b]; simp [mapGet, hne]
  obtain ⟨_, hv2, _, _⟩ := addOrUpdatePost_insert_proj h1
  rw [hv2, hm1b, hv1b]
  simp [mapSet, mapCount, hne, insertAt]

/-- Sample posts for the C8 witness. -/
def postW8a : Post := { postId := some "w8a", sequenceId := none, height := 10 }

def postW8b : Post := { postId := some "w8b", sequenceId := none, height := 10 }

/-- Claim C8 witness at concrete posts. -/
theorem addOrUpdatePost_append_ordering_witness :
    (addOrUpdatePost (addOrUpdatePost
      { postIdMap := [], visible := [], lowestSequenceId := none,
        scrollTop := 0, clientHeight := 100 } postW8a) postW8b).visible
      = [postW8a, postW8b] :=
  addOrUpdatePost_append_ordering postW8a postW8b 0 100 (by decide)

/-! ### Claim C3 -/

/-- A permutation of a two-element list is one of its two arrangements. -/
lemma perm_pair_eq {α : Type} {x y a b : α} (h : List.Perm [x, y] [a, b]) :
    (x = a ∧ y = b) ∨ (x = b ∧ y = a) := by
  have hx : x = a ∨ x = b := by
    simpa using h.mem_iff.mp (List.mem_cons_self x [y])
  rcases hx with hxa | hxb
  · left
    refine ⟨hxa, ?_⟩
    rw [hxa] at h
    simpa using List.perm_singleton.mp h.cons_inv
  · right
    refine ⟨hxb, ?_⟩
    rw [hxb] at h
    simpa using List.perm_singleton.mp ((h.trans (List.Perm.swap _ _ [])).cons_inv)

/-- A permutation of a three-element list is one of its six arrangements. -/
lemma perm_triple_eq {α : Type} {a b c : α} {l : List α} (h : List.Perm l [a, b, c]) :
    l = [a, b, c] ∨ l = [a, c, b] ∨ l = [b, a, c] ∨ l = [b, c, a] ∨
    l = [c, a, b] ∨ l = [c, b, a] := by
  have hlen := h.length_eq
  rcases l with _ | ⟨x, _ | ⟨y, _ | ⟨z, _ | ⟨w, t⟩⟩⟩⟩
  · simp at hlen
  · simp at hlen
  · simp at hlen
  case cons.cons.cons.cons => simp at hlen
  have hx : x = a ∨ x = b ∨ x = c := by
    simpa using h.mem_iff.mp (List.mem_cons_self x [y, z])
  rcases hx with hxa | hxb | hxc
  · rw [hxa] at h
    rcases perm_pair_eq h.cons_inv with ⟨hy, hz⟩ | ⟨hy, hz⟩
    · exact Or.inl (by rw [hxa, hy, hz])
    · exact Or.inr (Or.inl (by rw [hxa, hy, hz]))
  · rw [hxb] at h
    have h1 := (h.trans (List.Perm.swap b a [c])).cons_inv
    rcases perm_pair_eq h1 with ⟨hy, hz⟩ | ⟨hy, hz⟩
    · exact Or.inr (Or.inr (Or.inl (by rw [hxb, hy, hz])))
    · exact Or.inr (Or.inr (Or.inr (Or.inl (by rw [hxb, hy, hz]))))
  · rw [hxc] at h
    have h1 := (h.trans (((List.Perm.swap c b []).cons a).trans
      (List.Perm.swap c a [b]))).cons_inv
    rcases perm_pair_eq h1 with ⟨hy, hz⟩ | ⟨hy, hz⟩
    · exact Or.inr (Or.inr (Or.inr (Or.inr (Or.inl (by rw [hxc, hy, hz])))))
    · exact Or.inr (Or.inr (Or.inr (Or.inr (Or.inr (by rw [hxc, hy, hz])))))

/-- Any input arrangement of a `3, 2, 1`-sequenced batch normalizes to
newest-first under the descending sort. -/
lemma sortDescSeq_three {C B A : Post}
    (hC : C.sequenceId = some 3) (hB : B.sequenceId = some 2)
    (hA : A.sequenceId = some 1) {l : List Post} (hl : List.Perm l [C, B, A]) :
    sortDescSeq l = [C, B, A] := by
  rcases perm_triple_eq hl with rfl | rfl | rfl | rfl | rfl | rfl <;>
    simp [sortDescSeq, insertDesc, jsNum, hC, hB, hA]

/-- Running the prepend loop on the normalized batch `[C, B, A]` over a
container showing `[X]` produces `[A, B, C, X]`. -/
lemma foldl_prependOne_CBA (X C B A : Post) (m : Option Nat) (t c : Nat)
    (hCX : C.postId ≠ X.postId) (hBX : B.postId ≠ X.postId) (hAX : A.postId ≠ X.postId)
    (hBC : B.postId ≠ C.postId) (hAC : A.postId ≠ C.postId) (hAB : A.postId ≠ B.postId) :
    (List.foldl prependOne
      { postIdMap := [(X.postId, X)], visible := [X], lowestSequenceId := m,
        scrollTop := t, clientHeight := c } [C, B, A]).visible = [A, B, C, X] := by
  have hXC : X.postId ≠ C.postId := fun hh => hCX hh.symm
  have hXB : X.postId ≠ B.postId := fun hh => hBX hh.symm
  have hXA : X.postId ≠ A.postId := fun hh => hAX hh.symm
  have hCB : C.postId ≠ B.postId := fun hh => hBC hh.symm
  have hCA : C.postId ≠ A.postId := fun hh => hAC hh.symm
  have hBA : B.postId ≠ A.postId := fun hh => hAB hh.symm
  set s0 : State :=
    { postIdMap := [(X.postId, X)], visible := [X], lowestSequenceId := m,
      scrollTop := t, clientHeight := c } with hs0
  have h0m : s0.postIdMap = [(X.postId, X)] := rfl
  have h0v : s0.visible = [X] := rfl
  have hC0 : mapGet s0.postIdMap C.postId = none := by
    rw [h0m]
    simp [mapGet, hXC]
  obtain ⟨h1m, h1v, -, -⟩ := prependOne_not_found hC0
  have h1m2 : (prependOne s0 C).postIdMap = [(X.postId, X), (C.postId, C)] := by
    rw [h1m, h0m]
    simp [mapSet, hXC]
  have h1v2 : (prependOne s0 C).visible = [C, X] := by rw [h1v, h0v]
  have hB1 : mapGet (prependOne s0 C).postIdMap B.postId = none := by
    rw [h1m2]
    simp [mapGet, hXB, hCB]
  obtain ⟨h2m, h2v, -, -⟩ := prependOne_not_found hB1
  have h2m2 : (prependOne (prependOne s0 C) B).postIdMap =
      [(X.postId, X), (C.postId, C), (B.postId, B)] := by
    rw [h2m, h1m2]
    simp [mapSet, hXB, hCB]
  have h2v2 : (prependOne (prependOne s0 C) B).visible = [B, C, X] := by
    rw [h2v, h1v2]
  have hA2 : mapGet (prependOne (prependOne s0 C) B).postIdMap A.postId = none := by
    rw [h2m2]
    simp [mapGet, hXA, hCA, hBA]
  obtain ⟨-, h3v, -, -⟩ := prependOne_not_found hA2
  have h3v2 : (prependOne (prependOne (prependOne s0 C) B) A).visible = [A, B, C, X] := by
    rw [h3v, h2v2]
  simpa [List.foldl_cons, List.foldl_nil] using h3v2

/-- Claim C3: over an engine showing `[X]`, merging a historical batch with
distinct fresh `postId`s `C, B, A` carrying sequence ids `3, 2, 1`, given in
any input order, yields visible order `[A, B, C, X]` — the batch is sorted
newest-first and each post is inserted at the front, preserving
oldest-to-newest reading top-to-bottom; and an empty batch is a no-op. -/
theorem prependPosts_historical_ordering :
    (∀ (X C B A : Post) (m : Option Nat) (t c : Nat) (l : List Post),
      C.sequenceId = some 3 → B.sequenceId = some 2 → A.sequenceId = some 1 →
      C.postId ≠ X.postId → B.postId ≠ X.postId → A.postId ≠ X.postId →
      B.postId ≠ C.postId → A.postId ≠ C.postId → A.postId ≠ B.postId →
      List.Perm l [C, B, A] →
      (prependPosts
        { postIdMap := [(X.postId, X)], visible := [X], lowestSequenceId := m,
          scrollTop := t, clientHeight := c } l).visible = [A, B, C, X]) ∧
    (∀ st : State, prependPosts st [] = st) := by
  constructor
  · intro X C B A m t c l hC hB hA hCX hBX hAX hBC hAC hAB hperm
    have hsort : sortDescSeq l = [C, B, A] := sortDescSeq_three hC hB hA hperm
    rcases l with _ | ⟨p, ps⟩
    · have := hperm.length_eq
      simp at this
    rw [prependPosts_cons, hsort]
    exact foldl_prependOne_CBA X C B A _ t c hCX hBX hAX hBC hAC hAB
  · intro st
    rfl

/-- Sample posts for the C3 witness. -/
def postW3X : Post := { postId := some "x3", sequenceId := some 9, height := 10 }

def postW3C : Post := { postId := some "c3", sequenceId := some 3, height := 10 }

def postW3B : Post := { postId := some "b3", sequenceId := some 2, height := 10 }

def postW3A : Post := { postId := some "a3", sequenceId := some 1, height := 10 }

/-- Claim C3 witness: the batch delivered in the order `[B, A, C]` still
lands as `[A, B, C, X]`. -/
theorem prependPosts_historical_ordering_witness :
    (prependPosts
      { postIdMap := [(postW3X.postId, postW3X)], visible := [postW3X],
        lowestSequenceId := some 9, scrollTop := 0, clientHeight := 100 }
      [postW3B, postW3A, postW3C]).visible =
      [postW3A, postW3B, postW3C, postW3X] :=
  prependPosts_historical_ordering.1 postW3X postW3C postW3B postW3A (some 9) 0 100
    [postW3B, postW3A, postW3C] rfl rfl rfl (by decide) (by decide) (by decide)
    (by decide) (by decide) (by decide) (by decide)

/-! ### Claim C5 -/

/-- After any `addOrUpdatePost st p`, the `postId` of `p` is indexed with an
entry on which the reconcile condition no longer fires. -/
lemma addOrUpdatePost_found_after (st : State) (p : Post) :
    ∃ q, mapGet (addOrUpdatePost st p).postIdMap p.postId = some q ∧
      (!truthyNat q.sequenceId && truthyNat p.sequenceId) = false := by
  cases hq : mapGet st.postIdMap p.postId with
  | none =>
    refine ⟨p, ?_, ?_⟩
    · rw [(addOrUpdatePost_insert_proj hq).1]
      exact mapGet_mapSet_self _ _ _
    · cases h : truthyNat p.sequenceId <;> simp [h]
  | some q0 =>
    cases hc : (!truthyNat q0.sequenceId && truthyNat p.sequenceId) with
    | false =>
      refine ⟨q0, ?_, hc⟩
      rw [addOrUpdatePost_found_noassign hq hc]
      exact hq
    | true =>
      refine ⟨{ q0 with sequenceId := p.sequenceId }, ?_, ?_⟩
      · rw [addOrUpdatePost_found_assign hq hc]
        dsimp only
        exact mapGet_mapSet_self _ _ _
      · dsimp only
        cases h : truthyNat p.sequenceId <;> simp [h]

/-- A fixed point of `addOrUpdatePost`: a found `postId` with the reconcile
condition false and a marker that the marker update leaves alone. -/
lemma addOrUpdatePost_self_noop {st : State} {p : Post}
    (hm : markerUpd st.lowestSequenceId p.sequenceId = st.lowestSequenceId)
    {q : Post} (hq : mapGet st.postIdMap p.postId = some q)
    (hc : (!truthyNat q.sequenceId && truthyNat p.sequenceId) = false) :
    addOrUpdatePost st p = st := by
  rw [addOrUpdatePost_found_noassign hq hc, hm]

/-- The prepend loop is the identity when every batch `postId` is already
indexed. -/
lemma foldl_prependOne_skip (l : List Post) (st : State)
    (h : ∀ p ∈ l, (mapGet st.postIdMap p.postId).isSome = true) :
    List.foldl prependOne st l = st := by
  induction l with
  | nil => rfl
  | cons p ps ih =>
    rw [List.foldl_cons, prependOne_found (h p (by simp))]
    exact ih (fun r hr => h r (by simp [hr]))

lemma mem_insertDesc {q p : Post} : ∀ {l : List Post}, q ∈ insertDesc p l → q = p ∨ q ∈ l := by
  intro l
  induction l with
  | nil =>
    intro h
    simpa [insertDesc] using h
  | cons r rs ih =>
    intro h
    unfold insertDesc at h
    by_cases hcond : jsNum r.sequenceId < jsNum p.sequenceId
    · rw [if_pos hcond] at h
      exact List.mem_cons.mp h
    · rw [if_neg hcond] at h
      rcases List.mem_cons.mp h with rfl | h2
      · exact Or.inr (List.mem_cons_self _ _)
      · rcases ih h2 with rfl | h3
        · exact Or.inl rfl
        · exact Or.inr (List.mem_cons_of_mem _ h3)

lemma mem_sortDescSeq {q : Post} {l : List Post} (h : q ∈ sortDescSeq l) : q ∈ l := by
  induction l with
  | nil => simp [sortDescSeq] at h
  | cons p ps ih =>
    have hrw : sortDescSeq (p :: ps) = insertDesc p (sortDescSeq ps) := rfl
    rw [hrw] at h
    rcases mem_insertDesc h with rfl | h2
    · exact List.mem_cons_self _ _
    · exact List.mem_cons_of_mem _ (ih h2)

/-- Claim C5: both merge entry points are idempotent with respect to
`postId`: repeating `addOrUpdatePost` with the same post is a no-op (the
whole state, in particular the visible sequence and the identity index, is
unchanged); and `prependPosts` with a batch whose `postId`s are all already
indexed leaves the identity index and the visible sequence unchanged. -/
theorem merge_idempotence :
    (∀ (st : State) (p : Post),
      addOrUpdatePost (addOrUpdatePost st p) p = addOrUpdatePost st p) ∧
    (∀ (st : State) (l : List Post),
      (∀ p ∈ l, (mapGet st.postIdMap p.postId).isSome = true) →
      (prependPosts st l).postIdMap = st.postIdMap ∧
      (prependPosts st l).visible = st.visible) := by
  constructor
  · intro st p
    obtain ⟨q, hq, hc⟩ := addOrUpdatePost_found_after st p
    refine addOrUpdatePost_self_noop ?_ hq hc
    rw [addOrUpdatePost_lowest]
    exact markerUpd_idem _ _
  · intro st l h
    cases l with
    | nil => exact ⟨rfl, rfl⟩
    | cons p ps =>
      rw [prependPosts_cons,
        foldl_prependOne_skip (sortDescSeq (p :: ps))
          { st with lowestSequenceId :=
              prependMarkerUpd st.lowestSequenceId (lastSeqId (sortDescSeq (p :: ps))) }
          (fun r hr => h r (mem_sortDescSeq hr))]
      exact ⟨rfl, rfl⟩

/-- Sample post for the C5 witness. -/
def postW5 : Post := { postId := some "w5", sequenceId := some 3, height := 8 }

/-- Empty starting state for the C5 witness. -/
def stateW5 : State :=
  { postIdMap := [], visible := [], lowestSequenceId := none,
    scrollTop := 0, clientHeight := 100 }

/-- Claim C5 witness: a third delivery of the same post is a no-op, and a
fully overlapping backfill batch changes neither index nor visible list. -/
theorem merge_idempotence_witness :
    addOrUpdatePost (addOrUpdatePost stateW5 postW5) postW5 =
      addOrUpdatePost stateW5 postW5 ∧
    ((prependPosts (addOrUpdatePost stateW5 postW5) [postW5]).postIdMap =
        (addOrUpdatePost stateW5 postW5).postIdMap ∧
      (prependPosts (addOrUpdatePost stateW5 postW5) [postW5]).visible =
        (addOrUpdatePost stateW5 postW5).visible) :=
  ⟨merge_idempotence.1 stateW5 postW5,
   merge_idempotence.2 (addOrUpdatePost stateW5 postW5) [postW5] (by decide)⟩

/-! ### Claim C6 -/

/-- Writing `scrollHeight - clientHeight` into `scrollTop` lands exactly at
the bottom-most extent (the clamp is a no-op there). -/
lemma setScrollTop_to_bottom (st : State) :
    (setScrollTop st ((st.scrollHeight : Int) - (st.clientHeight : Int))).scrollTop
      = st.scrollHeight - st.clientHeight := by
  have h1 : st.clientHeight ≤ st.scrollHeight := clientHeight_le_scrollHeight st
  unfold setScrollTop
  dsimp only
  omega

/-- Claim C6: for a `addOrUpdatePost` call that inserts a new post, if the
viewport was at its bottom-most extent before the insertion it is at the new
bottom-most extent after it; otherwise the scroll offset is unchanged. -/
theorem addOrUpdatePost_scroll_follow (st : State) (p : Post)
    (hq : mapGet st.postIdMap p.postId = none) :
    (st.scrollHeight = st.scrollTop + st.clientHeight →
      (addOrUpdatePost st p).scrollHeight =
        (addOrUpdatePost st p).scrollTop + (addOrUpdatePost st p).clientHeight) ∧
    (st.scrollHeight ≠ st.scrollTop + st.clientHeight →
      (addOrUpdatePost st p).scrollTop = st.scrollTop) := by
  rw [addOrUpdatePost_insert hq]
  dsimp only
  constructor
  · intro hb
    rw [if_pos (by simpa using hb)]
    rw [setScrollTop_scrollHeight, setScrollTop_clientHeight, setScrollTop_to_bottom]
    have h1 := clientHeight_le_scrollHeight
      { st with
        lowestSequenceId := markerUpd st.lowestSequenceId p.sequenceId
        postIdMap := mapSet st.postIdMap p.postId p
        visible := insertAt (mapCount (mapSet st.postIdMap p.postId p) - 1) p st.visible }
    omega
  · intro hb
    rw [if_neg (by simpa using hb)]

/-- State for the C6 witness, matching the spec's worked example: viewport
extent 100, content extent 500, offset 400 (at the bottom). -/
def stateW6 : State :=
  { postIdMap := [(some "tall", { postId := some "tall", height := 500 })],
    visible := [{ postId := some "tall", height := 500 }],
    lowestSequenceId := none, scrollTop := 400, clientHeight := 100 }

/-- The C6 witness variant not at the bottom: offset 200. -/
def stateW6b : State := { stateW6 with scrollTop := 200 }

/-- Fresh post of height 20 for the C6 witness. -/
def postW6 : Post := { postId := some "w6", height := 20 }

/-- Claim C6 witness: at the spec's example geometry, the insert lands at
the new bottom; from offset 200 the offset is untouched. -/
theorem addOrUpdatePost_scroll_follow_witness :
    ((addOrUpdatePost stateW6 postW6).scrollHeight =
      (addOrUpdatePost stateW6 postW6).scrollTop +
        (addOrUpdatePost stateW6 postW6).clientHeight) ∧
    (addOrUpdatePost stateW6b postW6).scrollTop = stateW6b.scrollTop :=
  ⟨(addOrUpdatePost_scroll_follow stateW6 postW6 (by decide)).1 (by decide),
   (addOrUpdatePost_scroll_follow stateW6b postW6 (by decide)).2 (by decide)⟩

/-! ### Claim C7 -/

/-- Claim C7: for an individual prepend performed during a historical merge,
if the content extent grows by `dH` then the scroll offset advances by
exactly `dH`, keeping the content previously in view stationary.  The
hypothesis is the DOM invariant that the current offset does not exceed its
bottom-most extent. -/
theorem prependOne_scroll_preserve (st : State) (p : Post) (dH : Nat)
    (hvalid : st.scrollTop + st.clientHeight ≤ st.scrollHeight)
    (hgrow : (prependOne st p).scrollHeight = st.scrollHeight + dH) :
    (prependOne st p).scrollTop = st.scrollTop + dH := by
  cases hfound : (mapGet st.postIdMap p.postId).isSome with
  | true =>
    rw [prependOne_found hfound] at hgrow ⊢
    omega
  | false =>
    have hnone : mapGet st.postIdMap p.postId = none := by
      cases h : mapGet st.postIdMap p.postId with
      | none => rfl
      | some q => rw [h] at hfound; cases hfound
    unfold prependOne at hgrow ⊢
    rw [hnone] at hgrow ⊢
    simp only [Option.isSome_none, Bool.false_eq_true, if_false] at hgrow ⊢
    unfold State.scrollHeight contentHeight at hvalid
    unfold setScrollTop State.scrollHeight contentHeight at hgrow ⊢
    dsimp only at hvalid hgrow ⊢
    simp only [List.map_cons, List.sum_cons] at hgrow ⊢
    omega

/-- State for the C7 witness: content extent 500, offset 200, viewport 100. -/
def stateW7 : State :=
  { postIdMap := [(some "tall7", { postId := some "tall7", height := 500 })],
    visible := [{ postId := some "tall7", height := 500 }],
    lowestSequenceId := none, scrollTop := 200, clientHeight := 100 }

/-- Fresh historical post of height 30 for the C7 witness. -/
def postW7 : Post := { postId := some "w7", sequenceId := some 2, height := 30 }

/-- Claim C7 witness: prepending a post of height 30 grows the content
extent by 30 and advances the offset from 200 to exactly 230. -/
theorem prependOne_scroll_preserve_witness :
    (prependOne stateW7 postW7).scrollTop = stateW7.scrollTop + 30 :=
  prependOne_scroll_preserve stateW7 postW7 30 (by decide) (by decide)

/-! ### Claim C9 -/

/-- Claim C9: the `ConnectionReestablishing` reset empties the identity
index and the visible sequence but leaves the Lowest-Seen-Sequence marker
unchanged, so a backfill request emitted after reconnection carries the
stale pre-reset marker (or `0` if it was unknown) as its `end` bound. -/
theorem handleReestablishing_frame (st : State) :
    (handleReestablishing st).postIdMap = [] ∧
    (handleReestablishing st).visible = [] ∧
    (handleReestablishing st).lowestSequenceId = st.lowestSequenceId ∧
    ∀ a e, handleScroll (handleReestablishing st) = some (a, e) →
      a = 0 ∧ e = jsNum st.lowestSequenceId := by
  refine ⟨rfl, rfl, rfl, ?_⟩
  intro a e h
  rw [handleScroll_eq] at h
  split at h
  · cases h
    exact ⟨rfl, rfl⟩
  · cases h

/-- Sample state for the C9 witness: marker `7`, scrolled to the top. -/
def stateW9 : State :=
  { postIdMap := [(some "w9", { postId := some "w9", sequenceId := some 7, height := 30 })],
    visible := [{ postId := some "w9", sequenceId := some 7, height := 30 }],
    lowestSequenceId := some 7, scrollTop := 0, clientHeight := 100 }

/-- Claim C9 witness: after the reset, the next emitted backfill request
carries the stale marker `7`. -/
theorem handleReestablishing_frame_witness :
    (handleReestablishing stateW9).postIdMap = [] ∧
    (0 = 0 ∧ 7 = jsNum stateW9.lowestSequenceId) :=
  ⟨(handleReestablishing_frame stateW9).1,
    (handleReestablishing_frame stateW9).2.2.2 0 7 (by decide)⟩

/-! ### Claim C10 -/

/-- Claim C10: the `Post` constructor coerces every falsy field value to the
absent sentinel: `sequenceId` `0`, and empty-string `body`, `nickname` and
`postId`, all become `null`; in particular a post built from a map with
`sequenceId` `0` is un-sequenced, so merging it never moves the
Lowest-Seen-Sequence marker. -/
theorem Post_ofMap_falsy_coercion (pm : PostMap) :
    (pm.sequenceId = some 0 → (Post.ofMap pm).sequenceId = none) ∧
    (pm.body = some "" → (Post.ofMap pm).body = none) ∧
    (pm.nickname = some "" → (Post.ofMap pm).nickname = none) ∧
    (pm.postId = some "" → (Post.ofMap pm).postId = none) ∧
    (pm.sequenceId = some 0 → ∀ st : State,
      (addOrUpdatePost st (Post.ofMap pm)).lowestSequenceId = st.lowestSequenceId) := by
  refine ⟨?_, ?_, ?_, ?_, ?_⟩
  · intro h; simp [Post.ofMap, orNullNat, h]
  · intro h; simp [Post.ofMap, orNullStr, h]
  · intro h; simp [Post.ofMap, orNullStr, h]
  · intro h; simp [Post.ofMap, orNullStr, h]
  · intro h st
    have hseq : (Post.ofMap pm).sequenceId = none := by
      simp [Post.ofMap, orNullNat, h]
    rw [addOrUpdatePost_lowest, hseq]
    simp [markerUpd, truthyNat]

/-- Sample raw post map whose fields are all falsy. -/
def postMapFalsy : PostMap :=
  { sequenceId := some 0, body := some "", nickname := some "", postId := some "" }

/-- Sample state for the C10 witness: marker `9`. -/
def stateW10 : State :=
  { postIdMap := [], visible := [], lowestSequenceId := some 9,
    scrollTop := 0, clientHeight := 100 }

/-- Claim C10 witness at a concrete all-falsy post map. -/
theorem Post_ofMap_falsy_coercion_witness :
    (Post.ofMap postMapFalsy).sequenceId = none ∧
    (Post.ofMap postMapFalsy).body = none ∧
    (Post.ofMap postMapFalsy).nickname = none ∧
    (Post.ofMap postMapFalsy).postId = none ∧
    (addOrUpdatePost stateW10 (Post.ofMap postMapFalsy)).lowestSequenceId =
      stateW10.lowestSequenceId := by
  obtain ⟨h1, h2, h3, h4, h5⟩ := Post_ofMap_falsy_coercion postMapFalsy
  exact ⟨h1 rfl, h2 rfl, h3 rfl, h4 rfl, h5 rfl stateW10⟩

end Bits
